import Mathlib

/-!
Shallow embedding of the telestory-ts-backend fleet-coordination core:
the per-node account pool (round-robin checkout, per-account mutexes,
ban records, transfers), the stats aggregation pipeline and the
node-scoring / request-routing logic, together with theorems checking
the natural-language specification against the code.
-/

namespace TeleStory

/-! ## JS `Map` model

A JavaScript `Map` is an insertion-ordered association list with unique
keys: `set` on an existing key updates the value in place (keeping the
key's position), `set` on a fresh key appends, `delete` removes the key,
`Array.from(m.keys())` lists keys in insertion order. -/

/-- `Map.set`: update in place if the key exists, else append. -/
def mapSet {α : Type} (m : List (String × α)) (k : String) (v : α) :
    List (String × α) :=
  if (m.lookup k).isSome then
    m.map (fun p => if p.1 = k then (k, v) else p)
  else
    m ++ [(k, v)]

/-- `Map.delete`: remove the entry for the key, if present. -/
def mapDelete {α : Type} (m : List (String × α)) (k : String) :
    List (String × α) :=
  m.filter (fun p => p.1 ≠ k)

/-! ## Account documents (Mongo `TelestoryAccountData`)

Only the fields the verified operations read or write. -/

/-- A `TelestoryAccountData` document. -/
structure AccountRec where
  name : String
  phone : String
  bindNodeId : String
  /-- `transfertonode`: pending-transfer marker, absent or a node id. -/
  transfertonode : Option String
  inactiveReason : Option String
  isActive : Bool
  deriving Repr, DecidableEq

/-! ## The account pool (`TelestoryAccountsService`)

In-memory state: `accounts : Map<string, TelegramClient>`,
`accountMutexes : Map<string, Mutex>`, `accountsCounter : number`.
Clients and mutexes are opaque to the verified logic, so they are type
parameters. -/

/-- The in-memory state of `TelestoryAccountsService`. -/
structure PoolState (C M : Type) where
  accounts : List (String × C)
  accountMutexes : List (String × M)
  accountsCounter : Nat

/-- The empty pool (fields as declared at lines 118-121). -/
def PoolState.init (C M : Type) : PoolState C M :=
  { accounts := [], accountMutexes := [], accountsCounter := 0 }

/-- The success path of one iteration of the `initialize` loop
(lines 257-258): the connected client and a fresh mutex are inserted
into the two maps together. -/
def importAccount {C M : Type} (s : PoolState C M) (name : String)
    (tg : C) (mu : M) : PoolState C M :=
  { s with
    accounts := mapSet s.accounts name tg
    accountMutexes := mapSet s.accountMutexes name mu }

/-- `stopAccountClient` (lines 1195-1217): if the client is present it is
disconnected and both map entries are deleted; the entries are deleted
both when `disconnect` succeeds and when it throws (the error is caught).
If the client is absent the call is a no-op. -/
def stopAccountClient {C M : Type} (s : PoolState C M) (accountName : String)
    (disconnectFails : Bool) : PoolState C M :=
  match s.accounts.lookup accountName with
  | none => s
  | some _ =>
      if disconnectFails then
        { s with
          accounts := mapDelete s.accounts accountName
          accountMutexes := mapDelete s.accountMutexes accountName }
      else
        { s with
          accounts := mapDelete s.accounts accountName
          accountMutexes := mapDelete s.accountMutexes accountName }

/-- `getAccount` (lines 908-916): look the client up by name, throw
`Account not found` if absent, and return it with
`accountMutexes.get(name)!` (modelled as an `Option`, since the
non-null assertion does not check anything at runtime). -/
def getAccount {C M : Type} (s : PoolState C M) (name : String) :
    Except String (C × Option M) :=
  match s.accounts.lookup name with
  | none => .error "Account not found"
  | some account => .ok (account, s.accountMutexes.lookup name)

/-- `getNextAccount` (lines 918-947).  Reads
`Array.from(this.accounts.keys())[this.accountsCounter]` (which is
`undefined` when the index is out of range), then increments the counter
and wraps it to zero when it reaches the pool size, then looks the client
up (throwing `Account not found` when the name is `undefined` or absent)
and the account document up in the database (throwing
`Account data not found in database` when absent).  The counter mutation
happens before the lookups, so the returned state is advanced even on the
error paths. -/
def getNextAccount {C M : Type} (db : String → Option AccountRec)
    (s : PoolState C M) :
    Except String (C × Option M × AccountRec × String) × PoolState C M :=
  let keys := s.accounts.map Prod.fst
  let name? := keys[s.accountsCounter]?
  let c1 := s.accountsCounter + 1
  let c2 := if c1 ≥ s.accounts.length then 0 else c1
  let s' := { s with accountsCounter := c2 }
  match name? with
  | none => (.error "Account not found", s')
  | some name =>
      match s.accounts.lookup name with
      | none => (.error "Account not found", s')
      | some account =>
          match db name with
          | none => (.error "Account data not found in database", s')
          | some accountData =>
              (.ok (account, s.accountMutexes.lookup name, accountData, name), s')

/-- The names returned by `n` consecutive calls to `getNextAccount`
(an error contributes no name). -/
def checkoutNames {C M : Type} (db : String → Option AccountRec) :
    Nat → PoolState C M → List String
  | 0, _ => []
  | n + 1, s =>
      match getNextAccount db s with
      | (.ok (_, _, _, name), s') => name :: checkoutNames db n s'
      | (.error _, s') => checkoutNames db n s'

/-! ## Ban records (`AccountBanData`, `recordAccountBan`)

`AccountBanDataSchema` declares a unique compound index on
`(bannedAccountId, bannedByUsername)` (account-ban.schema.ts lines 69-72),
so `save` of a duplicate pair raises a Mongo duplicate-key error with
`code = 11000`. -/

/-- An `AccountBanData` document (fields the service writes). -/
structure BanRecord where
  bannedAccountId : String
  bannedAccountPhone : Option String
  bannedByUsername : String
  bannedByUserId : Option String
  bannedByPhone : Option String
  nodeId : String
  banType : String
  isActive : Bool
  deriving Repr, DecidableEq

/-- Two ban records collide on the unique compound index exactly when
both indexed fields agree. -/
def matchesBanPair (bannedAccountId bannedByUsername : String)
    (x : BanRecord) : Bool :=
  x.bannedAccountId = bannedAccountId && x.bannedByUsername = bannedByUsername

/-- `banRecord.save()` under the unique compound index: the insert
succeeds unless a record with the same `(bannedAccountId,
bannedByUsername)` pair is already stored, in which case Mongo raises
error code 11000 and the store is unchanged. -/
def saveBan (store : List BanRecord) (r : BanRecord) :
    List BanRecord × Except Nat Unit :=
  if store.any (matchesBanPair r.bannedAccountId r.bannedByUsername) then
    (store, .error 11000)
  else
    (store ++ [r], .ok ())

/-- The ban record `recordAccountBan` constructs (lines 975-985): the
account's phone from the id lookup, the banning username lowercased. -/
def mkBanRecord (byId : String → Option AccountRec) (nodeId : Option String)
    (accountId bannedByUsername : String)
    (bannedByUserId bannedByPhone : Option String) : BanRecord :=
  { bannedAccountId := accountId
    bannedAccountPhone := (byId accountId).map (fun a => a.phone)
    bannedByUsername := bannedByUsername.toLower
    bannedByUserId := bannedByUserId
    bannedByPhone := bannedByPhone
    nodeId := nodeId.getD "unknown"
    banType := "user_banned_account"
    isActive := true }

/-- `recordAccountBan` (lines 964-1003): look the account up by id for
its phone, build the record with the username lowercased, save it, and
catch every error (code 11000 means the ban was already recorded and is
a no-op; any other error is logged and swallowed).  The function never
throws, so it returns only the updated store. -/
def recordAccountBan (byId : String → Option AccountRec)
    (nodeId : Option String) (store : List BanRecord)
    (accountId bannedByUsername : String)
    (bannedByUserId bannedByPhone : Option String) : List BanRecord :=
  (saveBan store
    (mkBanRecord byId nodeId accountId bannedByUsername bannedByUserId
      bannedByPhone)).1

/-! ## Node registry records and stats DTOs -/

/-- A `TelestoryNodesData` document / registry entry.  Timestamps are
milliseconds since the epoch, as rationals (JS numbers). -/
structure RegNode where
  name : String
  ip : String
  apiUrl : String
  type : String
  isActive : Bool
  approvedByMasterNode : Bool
  lastActive : ℚ
  deriving Repr, DecidableEq

/-- One entry of `inactiveAccountsDetails`. -/
structure InactiveDetail where
  name : String
  reason : String
  lastActive : ℚ
  deriving Repr, DecidableEq

/-- `NodeAccountsStatsDto`. -/
structure AccountsStatsD where
  totalAccounts : ℚ
  activeAccounts : ℚ
  inactiveAccounts : ℚ
  inactiveAccountsDetails : List InactiveDetail
  deriving Repr, DecidableEq

/-- `NodeRequestStatsDto`. -/
structure RequestStatsD where
  requestsLastHour : ℚ
  requestsLastDay : ℚ
  requestsLastWeek : ℚ
  requestsLastMonth : ℚ
  totalDownloadSize : ℚ
  totalDownloadSizeFormatted : String
  deriving Repr, DecidableEq

/-- `NodeSystemStatsDto` (cpu list kept as model/speed pairs). -/
structure SystemStatsD where
  totalDiskSpace : ℚ
  freeDiskSpace : ℚ
  freeDiskSpacePercent : ℚ
  totalDiskSpaceFormatted : String
  freeDiskSpaceFormatted : String
  usedDiskSpaceFormatted : String
  uptime : ℚ
  uptimeFormatted : String
  totalMemory : ℚ
  freeMemory : ℚ
  usedMemory : ℚ
  totalMemoryFormatted : String
  freeMemoryFormatted : String
  usedMemoryFormatted : String
  cpus : List (String × ℚ)
  deriving Repr, DecidableEq

/-- `SingleNodeStatsDto` (`lastActive` kept numeric; the code serialises
it with `toISOString`, which is injective on timestamps). -/
structure SingleNodeStats where
  nodeId : String
  nodeName : String
  nodeIp : String
  nodeApiUrl : String
  nodeType : String
  isActive : Bool
  approvedByMaster : Bool
  lastActive : ℚ
  accountsStats : AccountsStatsD
  requestStats : RequestStatsD
  systemStats : SystemStatsD
  statsCollectionSuccess : Bool
  statsCollectionError : Option String
  deriving Repr, DecidableEq

/-- The zeroed accounts fallback used at lines 93-98 and 193-198. -/
def zeroAccountsStats : AccountsStatsD :=
  { totalAccounts := 0, activeAccounts := 0, inactiveAccounts := 0
    inactiveAccountsDetails := [] }

/-- The zeroed request fallback used at lines 99-106 and 200-210. -/
def zeroRequestStats : RequestStatsD :=
  { requestsLastHour := 0, requestsLastDay := 0, requestsLastWeek := 0
    requestsLastMonth := 0, totalDownloadSize := 0
    totalDownloadSizeFormatted := "0 B" }

/-- The zeroed system fallback used at lines 107-123 and 212-231. -/
def zeroSystemStats : SystemStatsD :=
  { totalDiskSpace := 0, freeDiskSpace := 0, freeDiskSpacePercent := 0
    totalDiskSpaceFormatted := "0 B", freeDiskSpaceFormatted := "0 B"
    usedDiskSpaceFormatted := "0 B", uptime := 0, uptimeFormatted := "0s"
    totalMemory := 0, freeMemory := 0, usedMemory := 0
    totalMemoryFormatted := "0 B", freeMemoryFormatted := "0 B"
    usedMemoryFormatted := "0 B", cpus := [] }

/-! ## `getCurrentNodeStats` (node-stats.service.ts lines 150-265)

The three local sub-reports run under `Promise.allSettled`; their
outcomes are inputs of the embedding. -/

/-- `true` exactly for a fulfilled (`Except.ok`) sub-report. -/
def isFulfilled {α : Type} : Except String α → Bool
  | .ok _ => true
  | .error _ => false

/-- `getCurrentNodeStats`: throws when the current node's record is
missing from the database; otherwise replaces each rejected sub-report
with its zeroed fallback and reports `statsCollectionSuccess` /
`statsCollectionError` from whether any sub-report rejected. -/
def getCurrentNodeStats (nodeData? : Option RegNode)
    (accountsStats : Except String AccountsStatsD)
    (requestStats : Except String RequestStatsD)
    (systemStats : Except String SystemStatsD) :
    Except String SingleNodeStats :=
  match nodeData? with
  | none => .error "Current node not found in database"
  | some nodeData =>
      let finalAccountsStats :=
        match accountsStats with
        | .ok v => v
        | .error _ => zeroAccountsStats
      let finalRequestStats :=
        match requestStats with
        | .ok v => v
        | .error _ => zeroRequestStats
      let finalSystemStats :=
        match systemStats with
        | .ok v => v
        | .error _ => zeroSystemStats
      let hasAnyFailures :=
        !isFulfilled accountsStats || !isFulfilled requestStats ||
          !isFulfilled systemStats
      .ok
        { nodeId := nodeData.name
          nodeName := nodeData.name
          nodeIp := nodeData.ip
          nodeApiUrl := nodeData.apiUrl
          nodeType := nodeData.type
          isActive := nodeData.isActive
          approvedByMaster := nodeData.approvedByMasterNode
          lastActive := nodeData.lastActive
          accountsStats := finalAccountsStats
          requestStats := finalRequestStats
          systemStats := finalSystemStats
          statsCollectionSuccess := !hasAnyFailures
          statsCollectionError :=
            if hasAnyFailures then
              some "Some stats collection components failed (check logs)"
            else none }

/-! ## `getAllNodesStats` (node-stats.service.ts lines 37-145) -/

/-- The I/O outcomes the fan-out depends on: the local snapshot for the
self node, the remote fetch per other node, and the registry `save` in
the remote-failure handler. -/
structure FleetEnv where
  selfId : String
  localOutcome : Except String SingleNodeStats
  remoteOutcome : String → Except String SingleNodeStats
  saveOutcome : String → Except String Unit

/-- Flags cleared by the remote-failure handler (lines 62-63) and by the
routing fallback (app.controller.ts lines 179-180). -/
def deactivateNode (node : RegNode) : RegNode :=
  { node with approvedByMasterNode := false, isActive := false }

/-- The zeroed per-node entry pushed by the outer catch (lines 84-126). -/
def zeroedEntry (node : RegNode) (msg : String) : SingleNodeStats :=
  { nodeId := node.name, nodeName := node.name, nodeIp := node.ip
    nodeApiUrl := node.apiUrl, nodeType := node.type
    isActive := node.isActive, approvedByMaster := node.approvedByMasterNode
    lastActive := node.lastActive
    accountsStats := zeroAccountsStats
    requestStats := zeroRequestStats
    systemStats := zeroSystemStats
    statsCollectionSuccess := false
    statsCollectionError := some msg }

/-- What one iteration of the `for` loop does with one node. -/
inductive NodeOutcome
  /-- Stats obtained: entry pushed and aggregated into the summary. -/
  | pushed (stats : SingleNodeStats) (node' : RegNode)
  /-- Remote fetch failed and the deactivating `save` succeeded:
  `continue` — no entry, no aggregation. -/
  | skipped (node' : RegNode)
  /-- An error escaped to the outer catch: zeroed entry pushed,
  no aggregation. -/
  | failedEntry (stats : SingleNodeStats) (node' : RegNode)

/-- One iteration of the loop body (lines 48-128): the self node uses
the local snapshot; other nodes are fetched remotely, and on a fetch
failure the node is deactivated and saved, then skipped with `continue`.
An error thrown by the local snapshot or by the `save` itself reaches
the outer catch, which pushes a zeroed `collectionSuccess=false` entry. -/
def processNode (env : FleetEnv) (node : RegNode) : NodeOutcome :=
  if node.name = env.selfId then
    match env.localOutcome with
    | .ok stats => .pushed stats node
    | .error msg => .failedEntry (zeroedEntry node msg) node
  else
    match env.remoteOutcome node.name with
    | .ok stats => .pushed stats node
    | .error _ =>
        let node' := deactivateNode node
        match env.saveOutcome node.name with
        | .ok _ => .skipped node'
        | .error msg => .failedEntry (zeroedEntry node' msg) node'

/-- Accumulated result of the fan-out loop. -/
structure FleetAcc where
  entries : List SingleNodeStats
  totalAccounts : ℚ
  totalActiveAccounts : ℚ
  totalRequestsLastDay : ℚ
  totalDiskSpaceUsed : ℚ
  activeNodes : Nat
  approvedNodes : Nat
  registry : List RegNode

/-- The loop of `getAllNodesStats`, head first: pushed entries are
aggregated into the summary totals; skipped and failed nodes are not. -/
def fleetScan (env : FleetEnv) : List RegNode → FleetAcc
  | [] =>
      { entries := [], totalAccounts := 0, totalActiveAccounts := 0
        totalRequestsLastDay := 0, totalDiskSpaceUsed := 0
        activeNodes := 0, approvedNodes := 0, registry := [] }
  | node :: rest =>
      let acc := fleetScan env rest
      match processNode env node with
      | .pushed stats node' =>
          { entries := stats :: acc.entries
            totalAccounts := stats.accountsStats.totalAccounts + acc.totalAccounts
            totalActiveAccounts :=
              stats.accountsStats.activeAccounts + acc.totalActiveAccounts
            totalRequestsLastDay :=
              stats.requestStats.requestsLastDay + acc.totalRequestsLastDay
            totalDiskSpaceUsed :=
              (stats.systemStats.totalDiskSpace - stats.systemStats.freeDiskSpace)
                + acc.totalDiskSpaceUsed
            activeNodes := (if stats.isActive then 1 else 0) + acc.activeNodes
            approvedNodes :=
              (if stats.approvedByMaster then 1 else 0) + acc.approvedNodes
            registry := node' :: acc.registry }
      | .skipped node' => { acc with registry := node' :: acc.registry }
      | .failedEntry stats node' =>
          { acc with
            entries := stats :: acc.entries
            registry := node' :: acc.registry }

/-- `AllNodesStatsDto.summary` plus the entries list. -/
structure AllNodesStats where
  nodes : List SingleNodeStats
  totalNodes : Nat
  activeNodes : Nat
  inactiveNodes : Nat
  approvedNodes : Nat
  totalAccounts : ℚ
  totalActiveAccounts : ℚ
  totalRequestsLastDay : ℚ
  totalDiskSpaceUsed : ℚ

/-- `getAllNodesStats`: run the fan-out loop and assemble the summary;
also returns the registry as mutated by the failure handlers. -/
def getAllNodesStats (env : FleetEnv) (nodes : List RegNode) :
    AllNodesStats × List RegNode :=
  let acc := fleetScan env nodes
  ({ nodes := acc.entries
     totalNodes := nodes.length
     activeNodes := acc.activeNodes
     inactiveNodes := nodes.length - acc.activeNodes
     approvedNodes := acc.approvedNodes
     totalAccounts := acc.totalAccounts
     totalActiveAccounts := acc.totalActiveAccounts
     totalRequestsLastDay := acc.totalRequestsLastDay
     totalDiskSpaceUsed := acc.totalDiskSpaceUsed }, acc.registry)

/-! ## Node scoring (`calculateNodeScore`, app.controller.ts lines 294-344) -/

/-- `calculateNodeScore(node, stats, isPremium)`, with `Date.now()` made
an explicit `now` parameter.  The score accumulates sequentially exactly
as in the source and is clamped with `Math.max(score, 0)` at the end. -/
def calculateNodeScore (now : ℚ) (node : RegNode) (stats : SingleNodeStats)
    (isPremium : Bool) : ℚ :=
  let score0 : ℚ := 0
  let activeAccounts := stats.accountsStats.activeAccounts
  let score1 := score0 + activeAccounts * 10
  let score2 :=
    if isPremium = true ∧ node.type = "premium" then score1 + 50 else score1
  let requestsPerHour := stats.requestStats.requestsLastHour
  let loadPenalty := min (requestsPerHour * 2) 100
  let score3 := score2 - loadPenalty
  let score4 :=
    if stats.systemStats.totalMemory > 0 then
      let memoryUsagePercent :=
        stats.systemStats.usedMemory / stats.systemStats.totalMemory * 100
      if memoryUsagePercent > 80 then score3 - 30
      else if memoryUsagePercent > 60 then score3 - 15
      else score3
    else score3
  let score5 :=
    if stats.systemStats.totalDiskSpace > 0 then
      let diskUsagePercent := 100 - stats.systemStats.freeDiskSpacePercent
      if diskUsagePercent > 90 then score4 - 25
      else if diskUsagePercent > 75 then score4 - 10
      else score4
    else score4
  let hoursSinceLastActive := (now - node.lastActive) / (1000 * 60 * 60)
  let score6 := if hoursSinceLastActive < 1 then score5 + 5 else score5
  max score6 0

/-- The scoring formula as the spec states it (§4.4): a single clamped
sum of weighted terms, to be compared with `calculateNodeScore`. -/
def specNodeScore (now : ℚ) (node : RegNode) (stats : SingleNodeStats)
    (wantsPremium : Bool) : ℚ :=
  let premiumBonus : ℚ :=
    if wantsPremium = true ∧ node.type = "premium" then 50 else 0
  let memoryPenalty : ℚ :=
    if stats.systemStats.usedMemory / stats.systemStats.totalMemory * 100 > 80
      then 30
    else if stats.systemStats.usedMemory / stats.systemStats.totalMemory * 100 > 60
      then 15
    else 0
  let diskPenalty : ℚ :=
    if 100 - stats.systemStats.freeDiskSpacePercent > 90 then 25
    else if 100 - stats.systemStats.freeDiskSpacePercent > 75 then 10
    else 0
  let recentBonus : ℚ := if now - node.lastActive < 3600000 then 5 else 0
  max 0
    (10 * stats.accountsStats.activeAccounts + premiumBonus
      - min (2 * stats.requestStats.requestsLastHour) 100
      - memoryPenalty - diskPenalty + recentBonus)

/-! ## Request routing (`getStoriesByUsername`, app.controller.ts 131-191)

Only the forwarding phase is embedded: a remote node was selected, the
forward either succeeds or throws, and on a throw the handler runs the
local downloader, deactivates the node in the registry and tags the
result. -/

/-- The tagged response the route handler returns; `payload` stands for
the spread `...result` / `...response.data`. -/
structure RouteResult (α : Type) where
  payload : α
  node : String
  routeLog : String
  fallbackError : Option String
  fallbackNode : Option String
  deriving Repr, DecidableEq

/-- The forward-to-remote phase: on success the remote data is relayed
tagged `remote_node_chosen`; on failure the local downloader runs first
(its own error would propagate, leaving the registry untouched), then
the node is deactivated and the result is tagged
`local_node_remote_error_fallback_<error message>`. -/
def forwardRequest {α : Type} (selfId : String) (bestNode : RegNode)
    (forwardOutcome : Except String α) (localOutcome : Except String α) :
    Except String (RouteResult α) × RegNode :=
  match forwardOutcome with
  | .ok d =>
      (.ok { payload := d, node := bestNode.name
             routeLog := "remote_node_chosen"
             fallbackError := none, fallbackNode := none }, bestNode)
  | .error errMsg =>
      match localOutcome with
      | .error localErr => (.error localErr, bestNode)
      | .ok r =>
          let bestNode' := deactivateNode bestNode
          (.ok { payload := r, node := selfId
                 routeLog := "local_node_remote_error_fallback_" ++ errMsg
                 fallbackError := some errMsg
                 fallbackNode := some bestNode.name }, bestNode')

/-! ## Account transfers (`processAccountTransfers`, lines 1223-1302) -/

/-- The I/O outcomes one transfer depends on: the main `updateOne`
(rebind + unset marker, atomic) and the cleanup `updateOne` in the catch
block, both keyed by account name, plus whether `disconnect` throws in
`stopAccountClient` (that error is swallowed there). -/
structure TransferEnv where
  selfId : String
  updateOutcome : String → Except String Unit
  cleanupOutcome : String → Except String Unit
  disconnectFails : String → Bool

/-- The selection filter of line 1226-1230: bound to this node, marker
present and non-empty, active. -/
def transferEligible (env : TransferEnv) (a : AccountRec) : Bool :=
  a.bindNodeId = env.selfId &&
    (match a.transfertonode with
      | some t => t ≠ ""
      | none => false) &&
    a.isActive

/-- What one loop iteration does to the account document.  The
`updateOne` is atomic: on success `bindNodeId` becomes the target and
the marker is unset together; `stopAccountClient` and
`saveSessionHistory` swallow their own errors, so the `updateOne` is the
only step whose failure reaches the catch block, which then unsets the
marker and records an inactive reason — unless that cleanup write fails
too, in which case the document is untouched. -/
def transferRecordStep (env : TransferEnv) (a : AccountRec) : AccountRec :=
  if transferEligible env a then
    let target := a.transfertonode.getD ""
    match env.updateOutcome a.name with
    | .ok _ => { a with bindNodeId := target, transfertonode := none }
    | .error msg =>
        match env.cleanupOutcome a.name with
        | .ok _ =>
            { a with transfertonode := none
                     inactiveReason := some ("Transfer failed: " ++ msg) }
        | .error _ => a
  else a

/-- `processAccountTransfers`: every eligible account is processed; the
in-memory pool sees `stopAccountClient` for each, and each document is
rewritten by its own (id-keyed) `updateOne`s, independent of the other
documents. -/
def processAccountTransfers {C M : Type} (env : TransferEnv)
    (s : PoolState C M) (db : List AccountRec) :
    PoolState C M × List AccountRec :=
  (db.foldl
      (fun sp a =>
        if transferEligible env a then
          stopAccountClient sp a.name (env.disconnectFails a.name)
        else sp)
      s,
    db.map (transferRecordStep env))

/-! ## Per-account mutual exclusion (`async-mutex` + `runExclusive`)

The per-account lock is `async-mutex`'s `Mutex`, held through
`mutex.runExclusive(body)` (part_012 lines 743-750): the callback runs
once the mutex is acquired and the mutex is released when the returned
promise settles, whether it resolves or rejects; waiters are queued, not
polled.  The primitive is external to the repository, so its documented
contract is embedded as a small transition system: tasks are identified
by naturals, each mutex is a holder plus a FIFO wait queue. -/

/-- Lifecycle of one `runExclusive` call against one account's mutex. -/
inductive Phase
  | idle (acct : String)
  | waiting (acct : String)
  | critical (acct : String)
  | done (acct : String)
  deriving Repr, DecidableEq

/-- One `Mutex`: the current holder (if any) and its wait queue. -/
structure MutexState where
  holder : Option Nat
  queue : List Nat
  deriving Repr, DecidableEq

/-- The whole lock system: one mutex per account name, one phase per
task. -/
structure LockSys where
  mutexes : String → MutexState
  tasks : Nat → Phase

/-- `acquire`: a free mutex is granted immediately; a held mutex
enqueues the caller, which suspends (no busy wait) — the holder is not
changed. -/
def acquire (s : LockSys) (t : Nat) (a : String) : LockSys :=
  let m := s.mutexes a
  match m.holder with
  | none =>
      { mutexes :=
          Function.update s.mutexes a { holder := some t, queue := m.queue }
        tasks := Function.update s.tasks t (.critical a) }
  | some _ =>
      { mutexes :=
          Function.update s.mutexes a
            { holder := m.holder, queue := m.queue ++ [t] }
        tasks := Function.update s.tasks t (.waiting a) }

/-- `release`: performed when the `runExclusive` body settles; the next
queued waiter (if any) is granted the mutex. -/
def release (s : LockSys) (t : Nat) (a : String) : LockSys :=
  let m := s.mutexes a
  match m.queue with
  | [] =>
      { mutexes := Function.update s.mutexes a { holder := none, queue := [] }
        tasks := Function.update s.tasks t (.done a) }
  | u0 :: rest =>
      { mutexes :=
          Function.update s.mutexes a { holder := some u0, queue := rest }
        tasks :=
          Function.update (Function.update s.tasks u0 (.critical a)) t
            (.done a) }

/-- The settle step of `runExclusive`: whatever the body's outcome
(resolution or rejection), the outcome is passed through and the mutex
is released. -/
def runExclusiveFinish {E V : Type} (s : LockSys) (t : Nat) (a : String)
    (outcome : Except E V) : Except E V × LockSys :=
  (outcome, release s t a)

/-- Interleaving steps of the lock system. -/
inductive LockStep : LockSys → LockSys → Prop
  | acquire (s : LockSys) (t : Nat) (a : String) :
      s.tasks t = .idle a → LockStep s (acquire s t a)
  | finish (s : LockSys) (t : Nat) (a : String) (outcome : Except String Unit) :
      s.tasks t = .critical a → LockStep s (runExclusiveFinish s t a outcome).2

/-- All mutexes free, every task idle on the account it will request. -/
def initSys (want : Nat → String) : LockSys :=
  { mutexes := fun _ => { holder := none, queue := [] }
    tasks := fun t => .idle (want t) }

/-- States reachable by interleaved checkouts and releases. -/
inductive ReachableLS (want : Nat → String) : LockSys → Prop
  | refl : ReachableLS want (initSys want)
  | step {s s' : LockSys} : ReachableLS want s → LockStep s s' →
      ReachableLS want s'

/-- The lock-system invariant: holders and critical tasks coincide,
queued tasks are waiting on that account, queues have no duplicates. -/
def LockInv (s : LockSys) : Prop :=
  (∀ a t, s.tasks t = .critical a → (s.mutexes a).holder = some t) ∧
  (∀ a t, (s.mutexes a).holder = some t → s.tasks t = .critical a) ∧
  (∀ a t, t ∈ (s.mutexes a).queue → s.tasks t = .waiting a) ∧
  (∀ a, (s.mutexes a).queue.Nodup)

/-! ## Pool-map mutations for the sync invariant (C10) -/

/-- The operations that mutate the two pool maps: the account-loading
step of `initialize` (lines 257-258) and `stopAccountClient`
(lines 1195-1217). -/
inductive PoolOp (C M : Type)
  | importAcc (name : String) (tg : C) (mu : M)
  | stopClient (name : String) (disconnectFails : Bool)

/-- Apply one map-mutating operation. -/
def applyPoolOp {C M : Type} (s : PoolState C M) : PoolOp C M → PoolState C M
  | .importAcc n tg mu => importAccount s n tg mu
  | .stopClient n f => stopAccountClient s n f

/-- Run a sequence of map-mutating operations from the empty pool. -/
def runPoolOps {C M : Type} (ops : List (PoolOp C M)) : PoolState C M :=
  ops.foldl applyPoolOp (PoolState.init C M)

/-- The sync invariant: every loaded account has a mutex. -/
def MapsInSync {C M : Type} (s : PoolState C M) : Prop :=
  ∀ n, (s.accounts.lookup n).isSome → (s.accountMutexes.lookup n).isSome

/-! ## Concrete fixtures used by witnesses and counterexamples -/

/-- A registry entry with neutral values. -/
def sampleNode (nm : String) : RegNode :=
  { name := nm, ip := "10.0.0.1", apiUrl := "http://node/", type := "free"
    isActive := true, approvedByMasterNode := true, lastActive := 0 }

/-- A healthy stats snapshot for a node. -/
def sampleStats (nm : String) : SingleNodeStats :=
  { nodeId := nm, nodeName := nm, nodeIp := "10.0.0.1"
    nodeApiUrl := "http://node/", nodeType := "free"
    isActive := true, approvedByMaster := true, lastActive := 0
    accountsStats :=
      { totalAccounts := 2, activeAccounts := 1, inactiveAccounts := 1
        inactiveAccountsDetails := [] }
    requestStats := zeroRequestStats
    systemStats := zeroSystemStats
    statsCollectionSuccess := true
    statsCollectionError := none }

/-- A three-node fleet in which exactly `n2`'s remote fetch fails and
the deactivating registry save succeeds. -/
def fleetEnv3 : FleetEnv :=
  { selfId := "n1"
    localOutcome := .ok (sampleStats "n1")
    remoteOutcome := fun nm =>
      if nm = "n2" then .error "fetch failed" else .ok (sampleStats nm)
    saveOutcome := fun _ => .ok () }

/-- A three-account pool fixture (clients and mutexes as numbers). -/
def samplePoolAccounts : List (String × Nat) := [("a", 0), ("b", 1), ("c", 2)]

/-- Mutex map matching `samplePoolAccounts`. -/
def samplePoolMutexes : List (String × Nat) :=
  [("a", 10), ("b", 11), ("c", 12)]

/-- A database holding a document for every account name. -/
def sampleAccountsDb (k : String) : Option AccountRec :=
  some { name := k, phone := "+1", bindNodeId := "n1", transfertonode := none
         inactiveReason := none, isActive := true }

/-- A premium registry entry, recently active. -/
def samplePremiumNode : RegNode :=
  { name := "p1", ip := "10.0.0.2", apiUrl := "http://p1/", type := "premium"
    isActive := true, approvedByMasterNode := true, lastActive := 0 }

/-- A stats snapshot with meaningful system totals for scoring. -/
def sampleScoreStats : SingleNodeStats :=
  { sampleStats "p1" with
    systemStats :=
      { zeroSystemStats with
        totalMemory := 100, usedMemory := 50, freeMemory := 50
        totalDiskSpace := 1000, freeDiskSpace := 500
        freeDiskSpacePercent := 50 } }

/-- A sample account document with a pending transfer marker. -/
def sampleTransferAccount : AccountRec :=
  { name := "acc1", phone := "+100", bindNodeId := "n1"
    transfertonode := some "n2", inactiveReason := none, isActive := true }

/-- A transfer environment in which `acc1`'s rebinding update fails and
the cleanup write succeeds. -/
def sampleTransferEnv : TransferEnv :=
  { selfId := "n1"
    updateOutcome := fun _ => .error "db down"
    cleanupOutcome := fun _ => .ok ()
    disconnectFails := fun _ => false }

/-!
# Theorems
-/

/-- C9: when the account pool holds zero loaded sessions, a checkout via
`getNextAccount` fails with the pool-empty error (the spec's `PoolEmpty`,
thrown as `Account not found`); the function makes no retry — it returns
the error to the caller. -/
theorem pool_empty_checkout_fails {C M : Type}
    (db : String → Option AccountRec) (s : PoolState C M)
    (h : s.accounts = []) :
    (getNextAccount db s).1 = .error "Account not found" := by
  simp [getNextAccount, h]

/-- Witness for C9 at the freshly constructed (empty) pool. -/
theorem pool_empty_checkout_fails_witness :
    (PoolState.init Nat Nat).accounts = [] ∧
      (getNextAccount (fun _ => none) (PoolState.init Nat Nat)).1 =
        .error "Account not found" :=
  ⟨rfl, pool_empty_checkout_fails (fun _ => none) (PoolState.init Nat Nat) rfl⟩

/-- C4: for every combination of sub-report outcomes, given the current
node's record exists, `getCurrentNodeStats` returns a snapshot rather
than throwing; each rejected sub-report is replaced by its zeroed
fallback, `statsCollectionSuccess` is true iff no sub-report rejected,
and the diagnostic error message is set exactly when one rejected. -/
theorem current_node_stats_tolerates_subreport_failures
    (nodeData : RegNode) (nodeData? : Option RegNode)
    (a : Except String AccountsStatsD) (r : Except String RequestStatsD)
    (sy : Except String SystemStatsD)
    (h : nodeData? = some nodeData) :
    ∃ snap, getCurrentNodeStats nodeData? a r sy = .ok snap ∧
      snap.accountsStats =
        (match a with | .ok v => v | .error _ => zeroAccountsStats) ∧
      snap.requestStats =
        (match r with | .ok v => v | .error _ => zeroRequestStats) ∧
      snap.systemStats =
        (match sy with | .ok v => v | .error _ => zeroSystemStats) ∧
      (snap.statsCollectionSuccess = true ↔
        isFulfilled a = true ∧ isFulfilled r = true ∧ isFulfilled sy = true) ∧
      (snap.statsCollectionError.isSome ↔
        ¬(isFulfilled a = true ∧ isFulfilled r = true ∧
            isFulfilled sy = true)) := by
  subst h
  rcases a with v₁ | e₁ <;> rcases r with v₂ | e₂ <;> rcases sy with v₃ | e₃ <;>
    simp [getCurrentNodeStats, isFulfilled]

/-- Witness for C4: the accounts sub-report rejected, the other two
fulfilled. -/
theorem current_node_stats_witness :
    (some (sampleNode "n1") = some (sampleNode "n1")) ∧
      (∃ snap,
        getCurrentNodeStats (some (sampleNode "n1"))
            (.error "accounts query failed") (.ok zeroRequestStats)
            (.ok zeroSystemStats) = .ok snap ∧
        snap.accountsStats =
          (match (.error "accounts query failed" :
              Except String AccountsStatsD) with
            | .ok v => v | .error _ => zeroAccountsStats) ∧
        snap.requestStats =
          (match (.ok zeroRequestStats : Except String RequestStatsD) with
            | .ok v => v | .error _ => zeroRequestStats) ∧
        snap.systemStats =
          (match (.ok zeroSystemStats : Except String SystemStatsD) with
            | .ok v => v | .error _ => zeroSystemStats) ∧
        (snap.statsCollectionSuccess = true ↔
          isFulfilled (.error "accounts query failed" :
              Except String AccountsStatsD) = true ∧
            isFulfilled (.ok zeroRequestStats :
              Except String RequestStatsD) = true ∧
            isFulfilled (.ok zeroSystemStats :
              Except String SystemStatsD) = true) ∧
        (snap.statsCollectionError.isSome ↔
          ¬(isFulfilled (.error "accounts query failed" :
              Except String AccountsStatsD) = true ∧
            isFulfilled (.ok zeroRequestStats :
              Except String RequestStatsD) = true ∧
            isFulfilled (.ok zeroSystemStats :
              Except String SystemStatsD) = true))) :=
  ⟨rfl, current_node_stats_tolerates_subreport_failures (sampleNode "n1") _
    _ _ _ rfl⟩

/-- C6: when forwarding to the selected node fails, the handler runs the
request locally, marks the node inactive and unapproved, and returns a
result tagged `local_node_remote_error_fallback_` followed by the
triggering error message; no error is raised to the caller. -/
theorem forward_failure_falls_back_locally {α : Type} (selfId : String)
    (bestNode : RegNode) (fwd loc : Except String α) (e : String) (r : α)
    (hf : fwd = .error e) (hl : loc = .ok r) :
    (forwardRequest selfId bestNode fwd loc).1 =
      .ok { payload := r, node := selfId
            routeLog := "local_node_remote_error_fallback_" ++ e
            fallbackError := some e, fallbackNode := some bestNode.name } ∧
    (forwardRequest selfId bestNode fwd loc).2.isActive = false ∧
    (forwardRequest selfId bestNode fwd loc).2.approvedByMasterNode = false := by
  subst hf hl
  simp [forwardRequest, deactivateNode]

/-- Witness for C6: a timeout forwarding to `n2`, local execution
succeeding with payload `7`. -/
theorem forward_failure_falls_back_locally_witness :
    ((.error "timeout of 30000ms exceeded" : Except String Nat) =
        .error "timeout of 30000ms exceeded") ∧
      ((.ok 7 : Except String Nat) = .ok 7) ∧
      ((forwardRequest "n1" (sampleNode "n2")
          (.error "timeout of 30000ms exceeded") (.ok 7)).1 =
        .ok { payload := 7, node := "n1"
              routeLog :=
                "local_node_remote_error_fallback_" ++
                  "timeout of 30000ms exceeded"
              fallbackError := some "timeout of 30000ms exceeded"
              fallbackNode := some (sampleNode "n2").name } ∧
      (forwardRequest "n1" (sampleNode "n2")
          (.error "timeout of 30000ms exceeded") (.ok 7)).2.isActive = false ∧
      (forwardRequest "n1" (sampleNode "n2")
          (.error "timeout of 30000ms exceeded")
          (.ok 7)).2.approvedByMasterNode = false) :=
  ⟨rfl, rfl,
    forward_failure_falls_back_locally "n1" (sampleNode "n2") _ _
      "timeout of 30000ms exceeded" 7 rfl rfl⟩

/-- C7: an account whose pending transfer fails at the rebinding update
(the only fallible step: `stopAccountClient` and `saveSessionHistory`
swallow their own errors) stays bound to its original node, has the
marker cleared and an explanatory reason set, provided the cleanup write
itself succeeds; the updated document is in the result of
`processAccountTransfers`, still bound to exactly its one original
node. -/
theorem transfer_failure_keeps_binding {C M : Type} (env : TransferEnv)
    (s : PoolState C M) (db : List AccountRec) (a : AccountRec)
    (t msg : String)
    (hmem : a ∈ db) (hbind : a.bindNodeId = env.selfId)
    (hmark : a.transfertonode = some t) (ht : t ≠ "")
    (hact : a.isActive = true)
    (hupd : env.updateOutcome a.name = .error msg)
    (hclean : env.cleanupOutcome a.name = .ok ()) :
    (transferRecordStep env a).bindNodeId = a.bindNodeId ∧
    (transferRecordStep env a).transfertonode = none ∧
    (transferRecordStep env a).inactiveReason =
      some ("Transfer failed: " ++ msg) ∧
    transferRecordStep env a ∈ (processAccountTransfers env s db).2 := by
  have helig : transferEligible env a = true := by
    simp [transferEligible, hbind, hmark, ht, hact]
  refine ⟨?_, ?_, ?_, ?_⟩
  · simp [transferRecordStep, helig, hupd, hclean]
  · simp [transferRecordStep, helig, hupd, hclean]
  · simp [transferRecordStep, helig, hupd, hclean]
  · exact List.mem_map_of_mem _ hmem

/-- Witness for C7 at the concrete failing transfer fixture. -/
theorem transfer_failure_keeps_binding_witness :
    (sampleTransferAccount ∈ [sampleTransferAccount]) ∧
      (sampleTransferAccount.bindNodeId = sampleTransferEnv.selfId) ∧
      (sampleTransferAccount.transfertonode = some "n2") ∧
      ("n2" ≠ "") ∧
      (sampleTransferAccount.isActive = true) ∧
      (sampleTransferEnv.updateOutcome sampleTransferAccount.name =
        .error "db down") ∧
      (sampleTransferEnv.cleanupOutcome sampleTransferAccount.name =
        .ok ()) ∧
      ((transferRecordStep sampleTransferEnv sampleTransferAccount).bindNodeId =
        sampleTransferAccount.bindNodeId ∧
      (transferRecordStep sampleTransferEnv
          sampleTransferAccount).transfertonode = none ∧
      (transferRecordStep sampleTransferEnv
          sampleTransferAccount).inactiveReason =
        some ("Transfer failed: " ++ "db down") ∧
      transferRecordStep sampleTransferEnv sampleTransferAccount ∈
        (processAccountTransfers sampleTransferEnv (PoolState.init Nat Nat)
          [sampleTransferAccount]).2) :=
  ⟨by decide, rfl, rfl, by decide, rfl, rfl, rfl,
    transfer_failure_keeps_binding sampleTransferEnv (PoolState.init Nat Nat)
      [sampleTransferAccount] sampleTransferAccount "n2" "db down"
      (by decide) rfl rfl (by decide) rfl rfl rfl⟩

/-- C8: `recordAccountBan` is idempotent — starting from a store with no
record for the `(accountId, bannedByUsername)` pair, two identical calls
leave exactly one stored record for the pair, and the second call is a
no-op (the duplicate-key error 11000 from the unique compound index is
caught, so it raises nothing — `recordAccountBan` is total). -/
theorem record_ban_idempotent (byId : String → Option AccountRec)
    (nodeId : Option String) (store : List BanRecord)
    (accountId username : String) (uid phone : Option String)
    (h0 : store.countP (matchesBanPair accountId username.toLower) = 0) :
    recordAccountBan byId nodeId
        (recordAccountBan byId nodeId store accountId username uid phone)
        accountId username uid phone =
      recordAccountBan byId nodeId store accountId username uid phone ∧
    (recordAccountBan byId nodeId
        (recordAccountBan byId nodeId store accountId username uid phone)
        accountId username uid phone).countP
      (matchesBanPair accountId username.toLower) = 1 := by
  have hrec : matchesBanPair accountId username.toLower
      (mkBanRecord byId nodeId accountId username uid phone) = true := by
    simp [matchesBanPair, mkBanRecord]
  have hany : store.any (matchesBanPair accountId username.toLower) = false := by
    rw [List.any_eq_false]
    intro x hx
    have hx0 := List.countP_eq_zero.mp h0 x hx
    simpa using hx0
  have hproj1 : (mkBanRecord byId nodeId accountId username uid
      phone).bannedAccountId = accountId := rfl
  have hproj2 : (mkBanRecord byId nodeId accountId username uid
      phone).bannedByUsername = username.toLower := rfl
  have h1 : recordAccountBan byId nodeId store accountId username uid phone =
      store ++ [mkBanRecord byId nodeId accountId username uid phone] := by
    simp [recordAccountBan, saveBan, hproj1, hproj2, hany]
  have hany2 : (store ++
        [mkBanRecord byId nodeId accountId username uid phone]).any
      (matchesBanPair accountId username.toLower) = true := by
    simp [List.any_append, hrec]
  have h2 : recordAccountBan byId nodeId
      (store ++ [mkBanRecord byId nodeId accountId username uid phone])
      accountId username uid phone =
      store ++ [mkBanRecord byId nodeId accountId username uid phone] := by
    simp [recordAccountBan, saveBan, hproj1, hproj2, hany2]
  rw [h1, h2]
  refine ⟨rfl, ?_⟩
  rw [List.countP_append, h0]
  simp [hrec]

/-- Witness for C8: banning twice from an empty store. -/
theorem record_ban_idempotent_witness :
    (([] : List BanRecord).countP (matchesBanPair "acc" "Bob".toLower) = 0) ∧
      (recordAccountBan (fun _ => none) (some "n1")
          (recordAccountBan (fun _ => none) (some "n1") [] "acc" "Bob" none
            none) "acc" "Bob" none none =
        recordAccountBan (fun _ => none) (some "n1") [] "acc" "Bob" none
          none ∧
      (recordAccountBan (fun _ => none) (some "n1")
          (recordAccountBan (fun _ => none) (some "n1") [] "acc" "Bob" none
            none) "acc" "Bob" none none).countP
        (matchesBanPair "acc" "Bob".toLower) = 1) :=
  ⟨rfl, record_ban_idempotent (fun _ => none) (some "n1") [] "acc" "Bob"
    none none rfl⟩

/-- C5: `calculateNodeScore` computes exactly the spec's clamped
weighted sum (when the system stats carry positive memory and disk
totals, so the usage percentages are meaningful), and the returned
score is never negative. -/
theorem calculate_node_score_matches_spec (now : ℚ) (node : RegNode)
    (stats : SingleNodeStats) (p : Bool)
    (hm : 0 < stats.systemStats.totalMemory)
    (hd : 0 < stats.systemStats.totalDiskSpace) :
    calculateNodeScore now node stats p = specNodeScore now node stats p ∧
    0 ≤ calculateNodeScore now node stats p := by
  have hhour : ((now - node.lastActive) / (1000 * 60 * 60) < 1) ↔
      (now - node.lastActive < 3600000) := by
    rw [div_lt_one (by norm_num : (0:ℚ) < 1000 * 60 * 60)]
    norm_num
  have hmin : min ((2:ℚ) * stats.requestStats.requestsLastHour) 100 =
      min (stats.requestStats.requestsLastHour * 2) 100 := by
    rw [mul_comm]
  constructor
  · simp only [calculateNodeScore, specNodeScore, hmin, hhour, gt_iff_lt,
      hm, hd, if_true]
    split_ifs <;> (rw [max_comm]; congr 1; ring)
  · simp only [calculateNodeScore]
    exact le_max_right _ 0

/-- Witness for C5: a premium node scored for a premium request. -/
theorem calculate_node_score_witness :
    (0 < sampleScoreStats.systemStats.totalMemory) ∧
    (0 < sampleScoreStats.systemStats.totalDiskSpace) ∧
    (calculateNodeScore 0 samplePremiumNode sampleScoreStats true =
        specNodeScore 0 samplePremiumNode sampleScoreStats true ∧
      0 ≤ calculateNodeScore 0 samplePremiumNode sampleScoreStats true) :=
  ⟨by norm_num [sampleScoreStats, zeroSystemStats, sampleStats],
    by norm_num [sampleScoreStats, zeroSystemStats, sampleStats],
    calculate_node_score_matches_spec 0 samplePremiumNode sampleScoreStats
      true
      (by norm_num [sampleScoreStats, zeroSystemStats, sampleStats])
      (by norm_num [sampleScoreStats, zeroSystemStats, sampleStats])⟩

/-- C3 counterexample: in a three-node fleet where exactly one node's
remote stats fetch fails (and the deactivating registry save succeeds),
`getAllNodesStats` returns 2 per-node entries, not 3 — the failing node
is skipped by `continue` without any zeroed entry. -/
theorem fleet_fanout_drops_failed_node :
    (getAllNodesStats fleetEnv3
        [sampleNode "n1", sampleNode "n2", sampleNode "n3"]).1.nodes.length
      = 2 ∧
    ¬((getAllNodesStats fleetEnv3
        [sampleNode "n1", sampleNode "n2", sampleNode "n3"]).1.nodes.length
      = 3) := by
  constructor <;> decide

/-- C3 (amended): in a three-node fleet where exactly one non-self
node's remote fetch fails and the deactivating save succeeds,
`getAllNodesStats` returns 2 entries (the two whose stats were
obtained, with their own success flags), skips the failing node from
the entries list entirely, marks the failing node's registry entry
inactive and unapproved as a side effect, and computes the summary
totals only over the returned entries; `totalNodes` still counts all 3
registry entries. -/
theorem fleet_fanout_amended (sid : String) (a b c : RegNode)
    (sa sc : SingleNodeStats) (msg : String)
    (rem : String → Except String SingleNodeStats)
    (sav : String → Except String Unit)
    (ha : a.name = sid) (hb : b.name ≠ sid) (hc : c.name ≠ sid)
    (hrb : rem b.name = .error msg) (hrc : rem c.name = .ok sc)
    (hsb : sav b.name = .ok ())
    (hsa : sa.statsCollectionSuccess = true)
    (hscs : sc.statsCollectionSuccess = true) :
    (getAllNodesStats ⟨sid, .ok sa, rem, sav⟩ [a, b, c]).1.nodes =
      [sa, sc] ∧
    (∀ e ∈ (getAllNodesStats ⟨sid, .ok sa, rem, sav⟩ [a, b, c]).1.nodes,
      e.statsCollectionSuccess = true) ∧
    (getAllNodesStats ⟨sid, .ok sa, rem, sav⟩ [a, b, c]).2 =
      [a, deactivateNode b, c] ∧
    (deactivateNode b).isActive = false ∧
    (deactivateNode b).approvedByMasterNode = false ∧
    (getAllNodesStats ⟨sid, .ok sa, rem, sav⟩ [a, b, c]).1.totalAccounts =
      sa.accountsStats.totalAccounts + sc.accountsStats.totalAccounts ∧
    (getAllNodesStats ⟨sid, .ok sa, rem, sav⟩ [a, b, c]).1.totalNodes = 3 := by
  refine ⟨?_, ?_, ?_, ?_, ?_, ?_, ?_⟩ <;>
    simp [getAllNodesStats, fleetScan, processNode, deactivateNode, ha, hb,
      hc, hrb, hrc, hsb, hsa, hscs]

/-- Witness for C3 (amended) at the concrete three-node fixture. -/
theorem fleet_fanout_amended_witness :
    ((sampleNode "n1").name = "n1") ∧
    ((sampleNode "n2").name ≠ "n1") ∧
    ((sampleNode "n3").name ≠ "n1") ∧
    (fleetEnv3.remoteOutcome (sampleNode "n2").name =
      .error "fetch failed") ∧
    (fleetEnv3.remoteOutcome (sampleNode "n3").name =
      .ok (sampleStats "n3")) ∧
    (fleetEnv3.saveOutcome (sampleNode "n2").name = .ok ()) ∧
    ((sampleStats "n1").statsCollectionSuccess = true) ∧
    ((sampleStats "n3").statsCollectionSuccess = true) ∧
    ((getAllNodesStats
        ⟨"n1", .ok (sampleStats "n1"), fleetEnv3.remoteOutcome,
          fleetEnv3.saveOutcome⟩
        [sampleNode "n1", sampleNode "n2", sampleNode "n3"]).1.nodes =
      [sampleStats "n1", sampleStats "n3"] ∧
    (∀ e ∈ (getAllNodesStats
        ⟨"n1", .ok (sampleStats "n1"), fleetEnv3.remoteOutcome,
          fleetEnv3.saveOutcome⟩
        [sampleNode "n1", sampleNode "n2", sampleNode "n3"]).1.nodes,
      e.statsCollectionSuccess = true) ∧
    (getAllNodesStats
        ⟨"n1", .ok (sampleStats "n1"), fleetEnv3.remoteOutcome,
          fleetEnv3.saveOutcome⟩
        [sampleNode "n1", sampleNode "n2", sampleNode "n3"]).2 =
      [sampleNode "n1", deactivateNode (sampleNode "n2"), sampleNode "n3"] ∧
    (deactivateNode (sampleNode "n2")).isActive = false ∧
    (deactivateNode (sampleNode "n2")).approvedByMasterNode = false ∧
    (getAllNodesStats
        ⟨"n1", .ok (sampleStats "n1"), fleetEnv3.remoteOutcome,
          fleetEnv3.saveOutcome⟩
        [sampleNode "n1", sampleNode "n2", sampleNode "n3"]).1.totalAccounts =
      (sampleStats "n1").accountsStats.totalAccounts +
        (sampleStats "n3").accountsStats.totalAccounts ∧
    (getAllNodesStats
        ⟨"n1", .ok (sampleStats "n1"), fleetEnv3.remoteOutcome,
          fleetEnv3.saveOutcome⟩
        [sampleNode "n1", sampleNode "n2", sampleNode "n3"]).1.totalNodes
      = 3) :=
  ⟨rfl, by decide, by decide, by rfl, by rfl, rfl, rfl, rfl,
    fleet_fanout_amended "n1" (sampleNode "n1") (sampleNode "n2")
      (sampleNode "n3") (sampleStats "n1") (sampleStats "n3") "fetch failed"
      fleetEnv3.remoteOutcome fleetEnv3.saveOutcome rfl (by decide)
      (by decide) (by rfl) (by rfl) rfl rfl rfl⟩

/-- Helper: a key occurring in the key list has a lookup value. -/
theorem lookup_isSome_of_mem_keys {α : Type} (m : List (String × α))
    (k : String) (h : k ∈ m.map Prod.fst) : (m.lookup k).isSome := by
  induction m with
  | nil => simp at h
  | cons p rest ih =>
      obtain ⟨k1, v1⟩ := p
      by_cases hk : k = k1
      · subst hk
        simp [List.lookup]
      · simp only [List.map_cons, List.mem_cons] at h
        rcases h with h | h
        · exact absurd h hk
        · have hbeq : (k == k1) = false := by simpa using hk
          simpa [List.lookup, hbeq] using ih h

/-- Helper: one `getNextAccount` call from a cursor below the pool size
returns the cursor's key and advances the cursor modulo the size. -/
theorem getNextAccount_step {C M : Type} (db : String → Option AccountRec)
    (m : List (String × C)) (mus : List (String × M)) (c : Nat)
    (hc : c < m.length)
    (hdb : ∀ k ∈ m.map Prod.fst, (db k).isSome) :
    ∃ cl ad,
      getNextAccount db ⟨m, mus, c⟩ =
        (.ok (cl, mus.lookup ((m.map Prod.fst).getD c ""), ad,
            (m.map Prod.fst).getD c ""),
          ⟨m, mus, (c + 1) % m.length⟩) := by
  have hclen : c < (m.map Prod.fst).length := by simpa using hc
  have hget : (m.map Prod.fst)[c]? = some ((m.map Prod.fst).getD c "") := by
    rw [List.getElem?_eq_getElem hclen, List.getD_eq_getElem _ _ hclen]
  have hkc : (m.map Prod.fst).getD c "" ∈ m.map Prod.fst := by
    rw [List.getD_eq_getElem _ _ hclen]
    exact List.getElem_mem _
  obtain ⟨cl, hcl⟩ :=
    Option.isSome_iff_exists.mp (lookup_isSome_of_mem_keys m _ hkc)
  obtain ⟨ad, had⟩ := Option.isSome_iff_exists.mp (hdb _ hkc)
  have hcounter : (if c + 1 ≥ m.length then 0 else c + 1) =
      (c + 1) % m.length := by
    rcases Nat.lt_or_ge (c + 1) m.length with h | h
    · rw [if_neg (by omega), Nat.mod_eq_of_lt h]
    · have he : c + 1 = m.length := by omega
      rw [if_pos h, he, Nat.mod_self]
  refine ⟨cl, ad, ?_⟩
  simp only [getNextAccount, hget, hcl, had, hcounter]

/-- Helper: `rotate` written as a `range` map of wrapped indices. -/
theorem rotate_eq_range_map (l : List String) (c : Nat) (hc : c < l.length) :
    l.rotate c =
      (List.range l.length).map (fun i => l.getD ((c + i) % l.length) "") := by
  have hlen0 : 0 < l.length := by omega
  apply List.ext_getElem
  · simp
  · intro i h1 h2
    rw [List.getElem_rotate]
    rw [List.getElem_map, List.getElem_range]
    rw [List.getD_eq_getElem _ _ (Nat.mod_lt _ hlen0)]
    congr 1
    rw [Nat.add_comm]

/-- Helper: the names of `n` consecutive checkouts from a cursor below
the pool size enumerate the key list cyclically. -/
theorem checkoutNames_formula {C M : Type} (db : String → Option AccountRec)
    (m : List (String × C)) (mus : List (String × M))
    (hdb : ∀ k ∈ m.map Prod.fst, (db k).isSome) :
    ∀ (n c : Nat), c < m.length →
      checkoutNames db n ⟨m, mus, c⟩ =
        (List.range n).map
          (fun i => (m.map Prod.fst).getD ((c + i) % m.length) "") := by
  intro n
  induction n with
  | zero =>
      intro c hc
      simp [checkoutNames]
  | succ n ih =>
      intro c hc
      obtain ⟨cl, ad, hstep⟩ := getNextAccount_step db m mus c hc hdb
      have hc' : (c + 1) % m.length < m.length := Nat.mod_lt _ (by omega)
      simp only [checkoutNames, hstep]
      rw [ih _ hc']
      rw [List.range_succ_eq_map]
      simp only [List.map_cons, List.map_map]
      congr 1
      · rw [Nat.add_zero, Nat.mod_eq_of_lt hc]
      · apply List.map_congr_left
        intro i _
        simp only [Function.comp]
        congr 1
        rw [Nat.mod_add_mod]
        congr 1
        omega

/-- C1: with N > 0 loaded accounts, a cursor inside the pool and no
concurrent pool mutation, N consecutive `getNextAccount` calls return
every loaded account exactly once before any repeats (the visit order is
the key list rotated to the cursor), and each call advances the cursor
by one, wrapping to zero when it reaches the pool size. -/
theorem round_robin_fairness {C M : Type} (db : String → Option AccountRec)
    (m : List (String × C)) (mus : List (String × M)) (c : Nat)
    (hc : c < m.length) (hnd : (m.map Prod.fst).Nodup)
    (hdb : ∀ k ∈ m.map Prod.fst, (db k).isSome) :
    checkoutNames db m.length ⟨m, mus, c⟩ = (m.map Prod.fst).rotate c ∧
    (∀ k ∈ m.map Prod.fst,
      (checkoutNames db m.length ⟨m, mus, c⟩).count k = 1) ∧
    (getNextAccount db ⟨m, mus, c⟩).2.accountsCounter =
      (c + 1) % m.length := by
  have hlen : (m.map Prod.fst).length = m.length := by simp
  have hrot := rotate_eq_range_map (m.map Prod.fst) c (by simpa using hc)
  have hmain : checkoutNames db m.length ⟨m, mus, c⟩ =
      (m.map Prod.fst).rotate c := by
    rw [checkoutNames_formula db m mus hdb m.length c hc, hrot, hlen]
  refine ⟨hmain, ?_, ?_⟩
  · intro k hk
    rw [hmain]
    exact ((List.rotate_perm (m.map Prod.fst) c).count_eq k).trans
      (List.count_eq_one_of_mem hnd hk)
  · obtain ⟨cl, ad, hstep⟩ := getNextAccount_step db m mus c hc hdb
    rw [hstep]

/-- Witness for C1: a three-account pool checked out three times from
cursor 0. -/
theorem round_robin_fairness_witness :
    (0 < samplePoolAccounts.length) ∧
    (samplePoolAccounts.map Prod.fst).Nodup ∧
    (∀ k ∈ samplePoolAccounts.map Prod.fst, (sampleAccountsDb k).isSome) ∧
    (checkoutNames sampleAccountsDb samplePoolAccounts.length
        ⟨samplePoolAccounts, samplePoolMutexes, 0⟩ =
      (samplePoolAccounts.map Prod.fst).rotate 0 ∧
    (∀ k ∈ samplePoolAccounts.map Prod.fst,
      (checkoutNames sampleAccountsDb samplePoolAccounts.length
          ⟨samplePoolAccounts, samplePoolMutexes, 0⟩).count k = 1) ∧
    (getNextAccount sampleAccountsDb
        ⟨samplePoolAccounts, samplePoolMutexes, 0⟩).2.accountsCounter =
      (0 + 1) % samplePoolAccounts.length) :=
  ⟨by decide, by decide, by decide,
    round_robin_fairness sampleAccountsDb samplePoolAccounts
      samplePoolMutexes 0 (by decide) (by decide) (by decide)⟩

/-- Helper: updating a present key's value in place stores the value. -/
theorem lookup_map_update {α : Type} (k : String) (v : α) :
    ∀ (m : List (String × α)), (m.lookup k).isSome →
      (m.map (fun p => if p.1 = k then (k, v) else p)).lookup k = some v := by
  intro m
  induction m with
  | nil =>
      intro h
      simp at h
  | cons p rest ih =>
      intro h
      obtain ⟨k1, v1⟩ := p
      by_cases hk : k1 = k
      · subst hk
        simp
      · have hbeq : (k == k1) = false := beq_false_of_ne fun hh => hk hh.symm
        have hh : (rest.lookup k).isSome := by
          simpa [List.lookup_cons, hbeq] using h
        simpa [List.lookup_cons, hbeq, hk] using ih hh

/-- Helper: `mapSet` stores the value at its key. -/
theorem lookup_mapSet_self {α : Type} (m : List (String × α)) (k : String)
    (v : α) : (mapSet m k v).lookup k = some v := by
  unfold mapSet
  by_cases h : (m.lookup k).isSome
  · rw [if_pos h]
    exact lookup_map_update k v m h
  · rw [if_neg h]
    rw [List.lookup_append]
    have hnone : m.lookup k = none := by
      cases hx : m.lookup k with
      | none => rfl
      | some _ =>
          rw [hx] at h
          simp at h
    rw [hnone]
    simp

/-- Helper: `mapSet` does not touch other keys. -/
theorem lookup_mapSet_ne {α : Type} (m : List (String × α)) (k k' : String)
    (v : α) (hne : k' ≠ k) : (mapSet m k v).lookup k' = m.lookup k' := by
  unfold mapSet
  by_cases h : (m.lookup k).isSome
  · rw [if_pos h]
    clear h
    induction m with
    | nil => simp
    | cons p rest ih =>
        obtain ⟨k1, v1⟩ := p
        by_cases hk : k1 = k
        · subst hk
          have hbeq : (k' == k1) = false := beq_false_of_ne hne
          simp [List.lookup_cons, hbeq, ih]
        · have hne1 : ((k1, v1).1 = k) = False := by simp [hk]
          simp only [List.map_cons, hne1, if_false]
          rw [List.lookup_cons, List.lookup_cons]
          cases hbeq : (k' == k1) with
          | true => rfl
          | false => exact ih
  · rw [if_neg h]
    rw [List.lookup_append]
    have hbeq : (k' == k) = false := beq_false_of_ne hne
    simp [List.lookup_cons, hbeq]

/-- Helper: `mapDelete` removes its key. -/
theorem lookup_mapDelete_self {α : Type} (m : List (String × α))
    (k : String) : (mapDelete m k).lookup k = none := by
  apply List.lookup_eq_none_iff.mpr
  intro p hp
  have h1 : p.1 ≠ k := by simpa using List.of_mem_filter hp
  simpa [bne_iff_ne] using fun hh => h1 hh.symm

/-- Helper: `mapDelete` does not touch other keys. -/
theorem lookup_mapDelete_ne {α : Type} (m : List (String × α))
    (k k' : String) (hne : k' ≠ k) :
    (mapDelete m k).lookup k' = m.lookup k' := by
  unfold mapDelete
  induction m with
  | nil => simp
  | cons p rest ih =>
      obtain ⟨k1, v1⟩ := p
      by_cases hk : k1 = k
      · subst hk
        have hbeq : (k' == k1) = false := beq_false_of_ne hne
        simpa [List.filter_cons, List.lookup_cons, hbeq, decide_not] using ih
      · rw [List.filter_cons,
          if_pos (show (decide ((k1, v1).1 ≠ k)) = true from by simpa using hk)]
        rw [List.lookup_cons, List.lookup_cons]
        cases hbeq : (k' == k1) with
        | true => rfl
        | false => exact ih

/-- Helper: each map-mutating pool operation preserves the sync
invariant. -/
theorem mapsInSync_applyPoolOp {C M : Type} (s : PoolState C M)
    (op : PoolOp C M) (h : MapsInSync s) : MapsInSync (applyPoolOp s op) := by
  cases op with
  | importAcc n tg mu =>
      intro k hk
      by_cases hkn : k = n
      · subst hkn
        simp [applyPoolOp, importAccount, lookup_mapSet_self]
      · simp only [applyPoolOp, importAccount] at hk ⊢
        rw [lookup_mapSet_ne _ _ _ _ hkn] at hk
        rw [lookup_mapSet_ne _ _ _ _ hkn]
        exact h k hk
  | stopClient n f =>
      intro k hk
      simp only [applyPoolOp, stopAccountClient] at hk ⊢
      cases hl : s.accounts.lookup n with
      | none =>
          rw [hl] at hk
          exact h k hk
      | some cl =>
          rw [hl] at hk
          cases f with
          | true =>
              have hk2 : ((mapDelete s.accounts n).lookup k).isSome = true := hk
              show ((mapDelete s.accountMutexes n).lookup k).isSome = true
              by_cases hkn : k = n
              · subst hkn
                rw [lookup_mapDelete_self] at hk2
                simp at hk2
              · rw [lookup_mapDelete_ne _ _ _ hkn] at hk2
                rw [lookup_mapDelete_ne _ _ _ hkn]
                exact h k hk2
          | false =>
              have hk2 : ((mapDelete s.accounts n).lookup k).isSome = true := hk
              show ((mapDelete s.accountMutexes n).lookup k).isSome = true
              by_cases hkn : k = n
              · subst hkn
                rw [lookup_mapDelete_self] at hk2
                simp at hk2
              · rw [lookup_mapDelete_ne _ _ _ hkn] at hk2
                rw [lookup_mapDelete_ne _ _ _ hkn]
                exact h k hk2

/-- Helper: the invariant survives any sequence of pool operations. -/
theorem mapsInSync_foldl {C M : Type} :
    ∀ (ops : List (PoolOp C M)) (s : PoolState C M), MapsInSync s →
      MapsInSync (ops.foldl applyPoolOp s) := by
  intro ops
  induction ops with
  | nil =>
      intro s h
      exact h
  | cons op rest ih =>
      intro s h
      exact ih _ (mapsInSync_applyPoolOp s op h)

/-- C10: every sequence of the map-mutating pool operations (the
`initialize` import, which inserts client and mutex together, and
`stopAccountClient`, which deletes both on its success and error paths)
keeps the `accounts` and `accountMutexes` maps in sync — every loaded
account has a mutex — so a `getAccount` checkout of a loaded account
always obtains a defined mutex. -/
theorem pool_maps_stay_in_sync {C M : Type} (ops : List (PoolOp C M)) :
    MapsInSync (runPoolOps ops) ∧
    (∀ n cl mu, getAccount (runPoolOps ops) n = .ok (cl, mu) →
      mu.isSome) := by
  have hsync : MapsInSync (runPoolOps ops) := by
    apply mapsInSync_foldl
    intro k hk
    simp [PoolState.init] at hk
  refine ⟨hsync, ?_⟩
  intro n cl mu hacc
  unfold getAccount at hacc
  cases hl : (runPoolOps ops).accounts.lookup n with
  | none =>
      rw [hl] at hacc
      exact absurd hacc (by simp)
  | some c0 =>
      rw [hl] at hacc
      cases hacc
      exact hsync n (by rw [hl]; simp)

/-- Witness for C10 at a concrete operation sequence (an import followed
by a stop whose `disconnect` throws, then another import). -/
theorem pool_maps_stay_in_sync_witness :
    MapsInSync (runPoolOps [PoolOp.importAcc "a" (0 : Nat) (10 : Nat),
        PoolOp.stopClient "a" true, PoolOp.importAcc "b" 1 11]) ∧
    (∀ n cl mu, getAccount (runPoolOps [PoolOp.importAcc "a" (0 : Nat)
        (10 : Nat), PoolOp.stopClient "a" true,
        PoolOp.importAcc "b" 1 11]) n = .ok (cl, mu) → mu.isSome) :=
  pool_maps_stay_in_sync _

/-- Helper: the lock invariant holds in the initial state. -/
theorem lockInv_init (want : Nat → String) : LockInv (initSys want) := by
  refine ⟨?_, ?_, ?_, ?_⟩
  · intro a t ht
    simp [initSys] at ht
  · intro a t ht
    simp [initSys] at ht
  · intro a t ht
    simp [initSys] at ht
  · intro a
    simp [initSys]

/-- Helper: `acquire` preserves the lock invariant. -/
theorem lockInv_acquire (s : LockSys) (t : Nat) (a : String)
    (hinv : LockInv s) (ht : s.tasks t = .idle a) :
    LockInv (acquire s t a) := by
  obtain ⟨h1, h2, h3, h4⟩ := hinv
  have htq : ∀ b, t ∉ (s.mutexes b).queue := by
    intro b hmem
    have hw := h3 b t hmem
    rw [ht] at hw
    cases hw
  cases hh : (s.mutexes a).holder with
  | none =>
      have hacq : acquire s t a =
          { mutexes := Function.update s.mutexes a
              { holder := some t, queue := (s.mutexes a).queue }
            tasks := Function.update s.tasks t (.critical a) } := by
        simp only [acquire, hh]
      rw [hacq]
      refine ⟨?_, ?_, ?_, ?_⟩
      · intro b u hu
        dsimp only at hu ⊢
        by_cases hut : u = t
        · subst hut
          rw [Function.update_same] at hu
          cases hu
          rw [Function.update_same]
        · rw [Function.update_noteq hut] at hu
          have hb := h1 b u hu
          by_cases hba : b = a
          · subst hba
            rw [hh] at hb
            cases hb
          · rw [Function.update_noteq hba]
            exact hb
      · intro b u hu
        dsimp only at hu ⊢
        by_cases hba : b = a
        · subst hba
          rw [Function.update_same] at hu
          dsimp only at hu
          cases hu
          rw [Function.update_same]
        · rw [Function.update_noteq hba] at hu
          have hcrit := h2 b u hu
          have hut : u ≠ t := by
            intro he
            subst he
            rw [ht] at hcrit
            cases hcrit
          rw [Function.update_noteq hut]
          exact hcrit
      · intro b u hu
        dsimp only at hu ⊢
        by_cases hba : b = a
        · subst hba
          rw [Function.update_same] at hu
          dsimp only at hu
          have hw := h3 b u hu
          have hut : u ≠ t := by
            intro he
            subst he
            rw [ht] at hw
            cases hw
          rw [Function.update_noteq hut]
          exact hw
        · rw [Function.update_noteq hba] at hu
          have hw := h3 b u hu
          have hut : u ≠ t := by
            intro he
            subst he
            rw [ht] at hw
            cases hw
          rw [Function.update_noteq hut]
          exact hw
      · intro b
        dsimp only
        by_cases hba : b = a
        · subst hba
          rw [Function.update_same]
          exact h4 b
        · rw [Function.update_noteq hba]
          exact h4 b
  | some w =>
      have hacq : acquire s t a =
          { mutexes := Function.update s.mutexes a
              { holder := some w, queue := (s.mutexes a).queue ++ [t] }
            tasks := Function.update s.tasks t (.waiting a) } := by
        simp only [acquire, hh]
      rw [hacq]
      refine ⟨?_, ?_, ?_, ?_⟩
      · intro b u hu
        dsimp only at hu ⊢
        by_cases hut : u = t
        · subst hut
          rw [Function.update_same] at hu
          cases hu
        · rw [Function.update_noteq hut] at hu
          have hb := h1 b u hu
          by_cases hba : b = a
          · subst hba
            rw [Function.update_same]
            dsimp only
            rw [hh] at hb
            exact hb
          · rw [Function.update_noteq hba]
            exact hb
      · intro b u hu
        dsimp only at hu ⊢
        by_cases hba : b = a
        · subst hba
          rw [Function.update_same] at hu
          dsimp only at hu
          rw [← hh] at hu
          have hcrit := h2 b u hu
          have hut : u ≠ t := by
            intro he
            subst he
            rw [ht] at hcrit
            cases hcrit
          rw [Function.update_noteq hut]
          exact hcrit
        · rw [Function.update_noteq hba] at hu
          have hcrit := h2 b u hu
          have hut : u ≠ t := by
            intro he
            subst he
            rw [ht] at hcrit
            cases hcrit
          rw [Function.update_noteq hut]
          exact hcrit
      · intro b u hu
        dsimp only at hu ⊢
        by_cases hba : b = a
        · subst hba
          rw [Function.update_same] at hu
          dsimp only at hu
          rw [List.mem_append] at hu
          rcases hu with hu | hu
          · have hw := h3 b u hu
            have hut : u ≠ t := by
              intro he
              subst he
              rw [ht] at hw
              cases hw
            rw [Function.update_noteq hut]
            exact hw
          · have hut : u = t := by simpa using hu
            subst hut
            rw [Function.update_same]
        · rw [Function.update_noteq hba] at hu
          have hw := h3 b u hu
          have hut : u ≠ t := by
            intro he
            subst he
            rw [ht] at hw
            cases hw
          rw [Function.update_noteq hut]
          exact hw
      · intro b
        dsimp only
        by_cases hba : b = a
        · subst hba
          rw [Function.update_same]
          dsimp only
          have hperm := List.perm_append_singleton t (s.mutexes b).queue
          rw [hperm.nodup_iff]
          exact List.nodup_cons.mpr ⟨htq b, h4 b⟩
        · rw [Function.update_noteq hba]
          exact h4 b

/-- Helper: `release` preserves the lock invariant. -/
theorem lockInv_release (s : LockSys) (t : Nat) (a : String)
    (hinv : LockInv s) (ht : s.tasks t = .critical a) :
    LockInv (release s t a) := by
  obtain ⟨h1, h2, h3, h4⟩ := hinv
  have hha : (s.mutexes a).holder = some t := h1 a t ht
  cases hq : (s.mutexes a).queue with
  | nil =>
      have hrel : release s t a =
          { mutexes :=
              Function.update s.mutexes a { holder := none, queue := [] }
            tasks := Function.update s.tasks t (.done a) } := by
        simp only [release, hq]
      rw [hrel]
      refine ⟨?_, ?_, ?_, ?_⟩
      · intro b u hu
        dsimp only at hu ⊢
        by_cases hut : u = t
        · subst hut
          rw [Function.update_same] at hu
          cases hu
        · rw [Function.update_noteq hut] at hu
          have hb := h1 b u hu
          by_cases hba : b = a
          · subst hba
            rw [hha] at hb
            cases hb
            exact absurd rfl hut
          · rw [Function.update_noteq hba]
            exact hb
      · intro b u hu
        dsimp only at hu ⊢
        by_cases hba : b = a
        · subst hba
          rw [Function.update_same] at hu
          dsimp only at hu
          cases hu
        · rw [Function.update_noteq hba] at hu
          have hcrit := h2 b u hu
          have hut : u ≠ t := by
            intro he
            subst he
            rw [ht] at hcrit
            cases hcrit
            exact hba rfl
          rw [Function.update_noteq hut]
          exact hcrit
      · intro b u hu
        dsimp only at hu ⊢
        by_cases hba : b = a
        · subst hba
          rw [Function.update_same] at hu
          dsimp only at hu
          simp at hu
        · rw [Function.update_noteq hba] at hu
          have hw := h3 b u hu
          have hut : u ≠ t := by
            intro he
            subst he
            rw [ht] at hw
            cases hw
          rw [Function.update_noteq hut]
          exact hw
      · intro b
        dsimp only
        by_cases hba : b = a
        · subst hba
          rw [Function.update_same]
          exact List.nodup_nil
        · rw [Function.update_noteq hba]
          exact h4 b
  | cons u0 rest =>
      have hu0w : s.tasks u0 = .waiting a := by
        apply h3 a u0
        rw [hq]
        exact List.mem_cons_self u0 rest
      have hu0t : u0 ≠ t := by
        intro he
        rw [he, ht] at hu0w
        cases hu0w
      have hnd : (u0 :: rest).Nodup := by
        rw [← hq]
        exact h4 a
      have hu0rest : u0 ∉ rest := (List.nodup_cons.mp hnd).1
      have hndrest : rest.Nodup := (List.nodup_cons.mp hnd).2
      have hrel : release s t a =
          { mutexes :=
              Function.update s.mutexes a { holder := some u0, queue := rest }
            tasks :=
              Function.update (Function.update s.tasks u0 (.critical a)) t
                (.done a) } := by
        simp only [release, hq]
      rw [hrel]
      refine ⟨?_, ?_, ?_, ?_⟩
      · intro b u hu
        dsimp only at hu ⊢
        by_cases hut : u = t
        · subst hut
          rw [Function.update_same] at hu
          cases hu
        · rw [Function.update_noteq hut] at hu
          by_cases huu0 : u = u0
          · subst huu0
            rw [Function.update_same] at hu
            cases hu
            rw [Function.update_same]
          · rw [Function.update_noteq huu0] at hu
            have hb := h1 b u hu
            by_cases hba : b = a
            · subst hba
              rw [hha] at hb
              cases hb
              exact absurd rfl hut
            · rw [Function.update_noteq hba]
              exact hb
      · intro b u hu
        dsimp only at hu ⊢
        by_cases hba : b = a
        · subst hba
          rw [Function.update_same] at hu
          dsimp only at hu
          cases hu
          rw [Function.update_noteq hu0t, Function.update_same]
        · rw [Function.update_noteq hba] at hu
          have hcrit := h2 b u hu
          have hut : u ≠ t := by
            intro he
            subst he
            rw [ht] at hcrit
            cases hcrit
            exact hba rfl
          have huu0 : u ≠ u0 := by
            intro he
            subst he
            rw [hu0w] at hcrit
            cases hcrit
          rw [Function.update_noteq hut, Function.update_noteq huu0]
          exact hcrit
      · intro b u hu
        dsimp only at hu ⊢
        by_cases hba : b = a
        · subst hba
          rw [Function.update_same] at hu
          dsimp only at hu
          have humem : u ∈ (s.mutexes b).queue := by
            rw [hq]
            exact List.mem_cons_of_mem u0 hu
          have hw := h3 b u humem
          have hut : u ≠ t := by
            intro he
            subst he
            rw [ht] at hw
            cases hw
          have huu0 : u ≠ u0 := by
            intro he
            subst he
            exact hu0rest hu
          rw [Function.update_noteq hut, Function.update_noteq huu0]
          exact hw
        · rw [Function.update_noteq hba] at hu
          have hw := h3 b u hu
          have hut : u ≠ t := by
            intro he
            subst he
            rw [ht] at hw
            cases hw
          have huu0 : u ≠ u0 := by
            intro he
            subst he
            rw [hu0w] at hw
            cases hw
            exact hba rfl
          rw [Function.update_noteq hut, Function.update_noteq huu0]
          exact hw
      · intro b
        dsimp only
        by_cases hba : b = a
        · subst hba
          rw [Function.update_same]
          exact hndrest
        · rw [Function.update_noteq hba]
          exact h4 b

/-- Helper: every reachable lock-system state satisfies the
invariant. -/
theorem lockInv_reachable (want : Nat → String) (s : LockSys)
    (h : ReachableLS want s) : LockInv s := by
  induction h with
  | refl => exact lockInv_init want
  | step hr hstep ih =>
      cases hstep with
      | acquire t a hta => exact lockInv_acquire _ t a ih hta
      | finish t a outcome hta => exact lockInv_release _ t a ih hta

/-- C2: in every reachable lock state: (i) at most one task is inside a
given account's critical section (exclusion); (ii) acquiring a held
mutex leaves the caller suspended in the wait queue with the holder
unchanged — the second checkout blocks, without busy-waiting, until
release; (iii) the `runExclusive` settle step releases the mutex (the
caller is no longer the holder) and passes the body's outcome through,
identically for resolution and rejection — release on every exit path;
(iv) operations on one account's mutex leave every other account's
mutex untouched, so checkouts of different accounts proceed
independently. -/
theorem mutex_exclusion (want : Nat → String) (s : LockSys)
    (h : ReachableLS want s) :
    (∀ a t t', s.tasks t = .critical a → s.tasks t' = .critical a →
      t = t') ∧
    (∀ t u a, s.tasks t = .idle a → (s.mutexes a).holder = some u →
      (acquire s t a).tasks t = .waiting a ∧
      ((acquire s t a).mutexes a).holder = some u ∧
      t ∈ ((acquire s t a).mutexes a).queue) ∧
    (∀ (t : Nat) (a : String) (outcome : Except String Unit),
      s.tasks t = .critical a →
      ((runExclusiveFinish s t a outcome).2.mutexes a).holder ≠ some t ∧
      (runExclusiveFinish s t a outcome).2.tasks t = .done a ∧
      (runExclusiveFinish s t a outcome).1 = outcome) ∧
    (∀ t a b, b ≠ a →
      (acquire s t a).mutexes b = s.mutexes b ∧
      ∀ (outcome : Except String Unit),
        (runExclusiveFinish s t a outcome).2.mutexes b = s.mutexes b) := by
  obtain ⟨h1, h2, h3, h4⟩ := lockInv_reachable want s h
  refine ⟨?_, ?_, ?_, ?_⟩
  · intro a t t' hcrit hcrit'
    have he1 := h1 a t hcrit
    have he2 := h1 a t' hcrit'
    rw [he1] at he2
    cases he2
    rfl
  · intro t u a hidle hholder
    have hacq : acquire s t a =
        { mutexes := Function.update s.mutexes a
            { holder := some u, queue := (s.mutexes a).queue ++ [t] }
          tasks := Function.update s.tasks t (.waiting a) } := by
      simp only [acquire, hholder]
    rw [hacq]
    refine ⟨?_, ?_, ?_⟩
    · dsimp only
      rw [Function.update_same]
    · dsimp only
      rw [Function.update_same]
    · dsimp only
      rw [Function.update_same]
      simp
  · intro t a outcome hcrit
    refine ⟨?_, ?_, rfl⟩
    · show ((release s t a).mutexes a).holder ≠ some t
      cases hq : (s.mutexes a).queue with
      | nil =>
          have hrel : release s t a =
              { mutexes :=
                  Function.update s.mutexes a { holder := none, queue := [] }
                tasks := Function.update s.tasks t (.done a) } := by
            simp only [release, hq]
          rw [hrel]
          dsimp only
          rw [Function.update_same]
          simp
      | cons u0 rest =>
          have hu0w : s.tasks u0 = .waiting a := by
            apply h3 a u0
            rw [hq]
            exact List.mem_cons_self u0 rest
          have hu0t : u0 ≠ t := by
            intro he
            rw [he, hcrit] at hu0w
            cases hu0w
          have hrel : release s t a =
              { mutexes := Function.update s.mutexes a
                  { holder := some u0, queue := rest }
                tasks :=
                  Function.update (Function.update s.tasks u0 (.critical a))
                    t (.done a) } := by
            simp only [release, hq]
          rw [hrel]
          dsimp only
          rw [Function.update_same]
          simpa using hu0t
    · show (release s t a).tasks t = .done a
      cases hq : (s.mutexes a).queue with
      | nil =>
          have hrel : release s t a =
              { mutexes :=
                  Function.update s.mutexes a { holder := none, queue := [] }
                tasks := Function.update s.tasks t (.done a) } := by
            simp only [release, hq]
          rw [hrel]
          dsimp only
          rw [Function.update_same]
      | cons u0 rest =>
          have hrel : release s t a =
              { mutexes := Function.update s.mutexes a
                  { holder := some u0, queue := rest }
                tasks :=
                  Function.update (Function.update s.tasks u0 (.critical a))
                    t (.done a) } := by
            simp only [release, hq]
          rw [hrel]
          dsimp only
          rw [Function.update_same]
  · intro t a b hba
    constructor
    · cases hh : (s.mutexes a).holder with
      | none =>
          have hacq : acquire s t a =
              { mutexes := Function.update s.mutexes a
                  { holder := some t, queue := (s.mutexes a).queue }
                tasks := Function.update s.tasks t (.critical a) } := by
            simp only [acquire, hh]
          rw [hacq]
          dsimp only
          rw [Function.update_noteq hba]
      | some w =>
          have hacq : acquire s t a =
              { mutexes := Function.update s.mutexes a
                  { holder := some w, queue := (s.mutexes a).queue ++ [t] }
                tasks := Function.update s.tasks t (.waiting a) } := by
            simp only [acquire, hh]
          rw [hacq]
          dsimp only
          rw [Function.update_noteq hba]
    · intro outcome
      show (release s t a).mutexes b = s.mutexes b
      cases hq : (s.mutexes a).queue with
      | nil =>
          have hrel : release s t a =
              { mutexes :=
                  Function.update s.mutexes a { holder := none, queue := [] }
                tasks := Function.update s.tasks t (.done a) } := by
            simp only [release, hq]
          rw [hrel]
          dsimp only
          rw [Function.update_noteq hba]
      | cons u0 rest =>
          have hrel : release s t a =
              { mutexes := Function.update s.mutexes a
                  { holder := some u0, queue := rest }
                tasks :=
                  Function.update (Function.update s.tasks u0 (.critical a))
                    t (.done a) } := by
            simp only [release, hq]
          rw [hrel]
          dsimp only
          rw [Function.update_noteq hba]

/-- Witness for C2 at a reachable state: task 0 has acquired account
`"a"`'s mutex from the initial state. -/
theorem mutex_exclusion_witness :
    ReachableLS (fun _ => "a")
        (acquire (initSys fun _ => "a") 0 "a") ∧
      ((∀ a t t',
          (acquire (initSys fun _ => "a") 0 "a").tasks t = .critical a →
          (acquire (initSys fun _ => "a") 0 "a").tasks t' = .critical a →
          t = t') ∧
      (∀ t u a,
          (acquire (initSys fun _ => "a") 0 "a").tasks t = .idle a →
          ((acquire (initSys fun _ => "a") 0 "a").mutexes a).holder =
            some u →
          (acquire (acquire (initSys fun _ => "a") 0 "a") t a).tasks t =
            .waiting a ∧
          ((acquire (acquire (initSys fun _ => "a") 0 "a") t a).mutexes
              a).holder = some u ∧
          t ∈ ((acquire (acquire (initSys fun _ => "a") 0 "a") t
              a).mutexes a).queue) ∧
      (∀ (t : Nat) (a : String) (outcome : Except String Unit),
          (acquire (initSys fun _ => "a") 0 "a").tasks t = .critical a →
          ((runExclusiveFinish (acquire (initSys fun _ => "a") 0 "a") t a
              outcome).2.mutexes a).holder ≠ some t ∧
          (runExclusiveFinish (acquire (initSys fun _ => "a") 0 "a") t a
              outcome).2.tasks t = .done a ∧
          (runExclusiveFinish (acquire (initSys fun _ => "a") 0 "a") t a
              outcome).1 = outcome) ∧
      (∀ t a b, b ≠ a →
          (acquire (acquire (initSys fun _ => "a") 0 "a") t a).mutexes b =
            (acquire (initSys fun _ => "a") 0 "a").mutexes b ∧
          ∀ (outcome : Except String Unit),
            (runExclusiveFinish (acquire (initSys fun _ => "a") 0 "a") t a
                outcome).2.mutexes b =
              (acquire (initSys fun _ => "a") 0 "a").mutexes b)) :=
  ⟨ReachableLS.step ReachableLS.refl
      (LockStep.acquire (initSys fun _ => "a") 0 "a" rfl),
    mutex_exclusion (fun _ => "a") (acquire (initSys fun _ => "a") 0 "a")
      (ReachableLS.step ReachableLS.refl
        (LockStep.acquire (initSys fun _ => "a") 0 "a" rfl))⟩

end TeleStory
